import Mathlib

/-!
Verification development for the SmartFeed feed-item generation pipeline
(`supabase/functions/generate-weighted-feed-item/index.ts`).

The definitions below are a shallow embedding of that edge function:
JavaScript strings are Lean `String`s (split / trim / join re-implemented
over `List Char` so that they compute), machine numbers used by the weighted
selection are modelled as real numbers, fallible steps return `Except`, and
each phase of the request handler is a Lean function mirroring the
corresponding region of the source file.  Theorems about the claims follow
the definitions.
-/

namespace SmartFeed

/-! ## JavaScript string primitives -/

/-- Whitespace as matched by the JavaScript pattern class `\s` and by
`String.prototype.trim`: ASCII whitespace, NBSP, BOM and the Unicode space
separators. -/
def jsSpace (c : Char) : Bool :=
  c = ' ' || c = '\t' || c = '\n' || c.toNat = 0x0B || c.toNat = 0x0C || c = '\r' ||
  c.toNat = 0xA0 || c.toNat = 0x1680 || (0x2000 ≤ c.toNat && c.toNat ≤ 0x200A) ||
  c.toNat = 0x2028 || c.toNat = 0x2029 || c.toNat = 0x202F || c.toNat = 0x205F ||
  c.toNat = 0x3000 || c.toNat = 0xFEFF

/-- Characters of `s.trim()`: the leading and trailing whitespace dropped. -/
def jsTrimChars (l : List Char) : List Char :=
  ((l.dropWhile jsSpace).reverse.dropWhile jsSpace).reverse

/-- JavaScript `s.trim()`. -/
def jsTrim (s : String) : String :=
  String.mk (jsTrimChars s.data)

/-- JavaScript `s.split("\n")` on the character list: every newline separates
two (possibly empty) fields, and the empty string yields one empty field. -/
def splitNl : List Char → List (List Char)
  | [] => [[]]
  | c :: rest =>
    match splitNl rest with
    | [] => [[c]]
    | g :: gs => if c = '\n' then [] :: g :: gs else (c :: g) :: gs

/-- JavaScript `parts.join("\n")`. -/
def joinNl : List String → String
  | [] => ""
  | [e] => e
  | e :: es => e ++ "\n" ++ joinNl es

/-- The last `n` elements of a list, in order: JavaScript `xs.slice(-n)` for
`n > 0` (the whole list when it is shorter than `n`). -/
def lastN (n : Nat) (l : List α) : List α :=
  l.drop (l.length - n)

/-! ## Character rows and history parsing (source lines 120–132, 183–186) -/

/-- A row of the `characters` table, with the columns the function selects:
`id, prompt, likes, dislikes, user_id, name, image_url, history`.  Nullable
columns are `Option`s. -/
structure Character where
  id : String
  prompt : Option String
  likes : Option Int
  dislikes : Option Int
  user_id : Option String
  name : Option String
  image_url : Option String
  history : Option String
deriving DecidableEq

/-- Line 183: `typeof selected.history === "string" ? selected.history : ""`. -/
def existingHistoryRaw (sel : Character) : String :=
  sel.history.getD ""

/-- Line 184: `existingHistoryRaw.split("\n").map(e => e.trim()).filter(Boolean)` —
the non-empty trimmed lines of the stored history. -/
def historyEntries (s : String) : List String :=
  (((splitNl s.data).map (fun e => jsTrim (String.mk e))).filter (fun e => e != ""))

/-- Line 185: `historyEntries.slice(-10)`. -/
def recentHistoryEntries (s : String) : List String :=
  lastN 10 (historyEntries s)

/-- The fixed sentinel emitted when no history entries remain (line 186). -/
def noHistorySentinel : String :=
  "No previous TL;DR summaries exist yet for this character."

/-- The fixed header prefixed to a non-empty history listing (line 186). -/
def historyHeader : String :=
  "Previous TL;DR summaries (oldest first):\n"

/-- Line 186: the history context sent to the model — the recent entries
numbered from 1 and joined by newlines under a fixed header, or the sentinel
when none remain. -/
def historyContext (s : String) : String :=
  let recent := recentHistoryEntries s
  if 0 < recent.length then
    historyHeader ++ joinNl (recent.enum.map (fun p => toString (p.1 + 1) ++ ". " ++ p.2))
  else
    noHistorySentinel

/-- Numbering entries `k`, `k+1`, … as the spec describes it ("numbered
1..n in oldest-first order" is `numberedFrom 1`). -/
def numberedFrom (k : Nat) : List String → List String
  | [] => []
  | e :: es => (toString k ++ ". " ++ e) :: numberedFrom (k + 1) es

/-- The history context builder as the specification words it: split, trim,
drop empties, keep the most recent 10 oldest-first, sentinel when none
remain, otherwise a header followed by the entries numbered from 1. -/
def historyContextSpec (s : String) : String :=
  let entries := lastN 10 (historyEntries s)
  if entries = [] then noHistorySentinel
  else historyHeader ++ joinNl (numberedFrom 1 entries)

/-! ## History write-back (source lines 312–318) -/

/-- Line 316. -/
def maxHistoryEntries : Nat := 20

/-- Lines 312–315: `[...historyEntries, feedTldr]`. -/
def updatedHistoryEntries (s tldr : String) : List String :=
  historyEntries s ++ [tldr]

/-- Line 317: `updatedHistoryEntries.slice(-maxHistoryEntries)`. -/
def truncatedHistoryEntries (s tldr : String) : List String :=
  lastN maxHistoryEntries (updatedHistoryEntries s tldr)

/-- Line 318: the value written back to `characters.history`. -/
def updatedHistory (s tldr : String) : String :=
  joinNl (truncatedHistoryEntries s tldr)

/-! ## Weighted random selection (source lines 166–177), over ideal reals -/

/-- Line 167: a character weighs `1 + Math.sqrt(Math.max(c.likes ?? 0, 0))`
(an absent likes value treated as 0). -/
noncomputable def weight (likes : Option Int) : ℝ :=
  1 + Real.sqrt ((max (likes.getD 0) 0 : ℤ) : ℝ)

/-- Line 167: the weights of a character list. -/
noncomputable def weightsOf (cs : List Character) : List ℝ :=
  cs.map (fun c => weight c.likes)

/-- Line 168: the total weight. -/
noncomputable def totalWeight (cs : List Character) : ℝ :=
  (weightsOf cs).sum

/-- Lines 170–177: starting from index `i`, subtract each weight from the
running remainder `r` and stop at the first index where the remainder is
`≤ 0`; when the loop exhausts the list without triggering, the selection
keeps its initial value `characters[0]`, i.e. index 0. -/
noncomputable def selectLoop : List ℝ → ℝ → Nat → Nat
  | [], _, _ => 0
  | w :: ws, r, i => if r - w ≤ 0 then i else selectLoop ws (r - w) (i + 1)

/-- The index selected for draw `r` (line 169: `r` is `Math.random() * total`). -/
noncomputable def selectIndex (ws : List ℝ) (r : ℝ) : Nat :=
  selectLoop ws r 0

/-- Accumulator-free form of the selection walk, used to characterise it. -/
noncomputable def firstHit : List ℝ → ℝ → Nat
  | [], _ => 0
  | w :: ws, r => if r - w ≤ 0 then 0 else firstHit ws (r - w) + 1

/-- The cumulative weight of indices `0..i`. -/
noncomputable def cumWeight (ws : List ℝ) (i : Nat) : ℝ :=
  ((ws.take (i + 1)).sum)

/-- The cumulative weight of the indices strictly before `i`. -/
noncomputable def preWeight (ws : List ℝ) (i : Nat) : ℝ :=
  ((ws.take i).sum)

/-- The set of draws in `[0, total)` that select index `i`. -/
def drawSet (ws : List ℝ) (i : Nat) : Set ℝ :=
  {r | 0 ≤ r ∧ r < ws.sum ∧ selectIndex ws r = i}

/-! ## Header image URL (source lines 5–18) -/

/-- The constant fallback prompt source (line 7). -/
def defaultPromptSource : String :=
  "simple monochrome illustration of a story moment"

/-- Lines 6–7, second and third disjunct: `(fallback && fallback.trim()) || default`. -/
def promptFallbackOf (fallback : Option String) : String :=
  match fallback with
  | some f => if jsTrim f != "" then jsTrim f else defaultPromptSource
  | none => defaultPromptSource

/-- Lines 6–7: `(title && title.trim()) || (fallback && fallback.trim()) || default`. -/
def promptSourceOf (title fallback : Option String) : String :=
  match title with
  | some t => if jsTrim t != "" then jsTrim t else promptFallbackOf fallback
  | none => promptFallbackOf fallback

/-- Line 8. -/
def descriptivePromptOf (title fallback : Option String) : String :=
  "simple monochrome illustration of " ++ promptSourceOf title fallback ++
    " central focus minimal background"

/-- The characters kept by `replace(/[^a-z0-9\s-]/g, "")`. -/
def slugKeep (c : Char) : Bool :=
  ('a' ≤ c && c ≤ 'z') || ('0' ≤ c && c ≤ '9') || jsSpace c || c = '-'

/-- `replace(/\s+/g, "-")`: each maximal whitespace run becomes one hyphen.
The flag records whether the previous character was inside a run. -/
def collapseWsAux : List Char → Bool → List Char
  | [], _ => []
  | c :: rest, inRun =>
    if jsSpace c then
      if inRun then collapseWsAux rest true else '-' :: collapseWsAux rest true
    else c :: collapseWsAux rest false

/-- `replace(/\s+/g, "-")` on a whole list. -/
def collapseWs (l : List Char) : List Char :=
  collapseWsAux l false

/-- Lines 9–15 up to the `||`: lowercase (`String.prototype.toLowerCase`,
modelled on the ASCII range by `Char.toLower`), strip the characters the
regex removes, trim, collapse whitespace runs to hyphens, `slice(0, 140)`. -/
def cleanedSlugChars (title fallback : Option String) : List Char :=
  (collapseWs (jsTrimChars
    (((descriptivePromptOf title fallback).data.map Char.toLower).filter slugKeep))).take 140

/-- Line 15: the cleaned slug, or `story-image-${crypto.randomUUID()}` when
it is empty; the UUID the runtime draws is passed in as `uuid`. -/
def slugOf (uuid : String) (title fallback : Option String) : String :=
  let s := cleanedSlugChars title fallback
  if s = [] then "story-image-" ++ uuid else String.mk s

/-- Characters `encodeURIComponent` leaves unescaped. -/
def uriUnreserved (c : Char) : Bool :=
  ('A' ≤ c && c ≤ 'Z') || ('a' ≤ c && c ≤ 'z') || ('0' ≤ c && c ≤ '9') ||
  c = '-' || c = '_' || c = '.' || c = '!' || c = '~' || c = '*' ||
  c = Char.ofNat 39 || c = '(' || c = ')'

/-- The UTF-8 bytes of a code point. -/
def utf8Bytes (n : Nat) : List Nat :=
  if n < 0x80 then [n]
  else if n < 0x800 then [0xC0 + n / 64, 0x80 + n % 64]
  else if n < 0x10000 then [0xE0 + n / 4096, 0x80 + (n / 64) % 64, 0x80 + n % 64]
  else [0xF0 + n / 262144, 0x80 + (n / 4096) % 64, 0x80 + (n / 64) % 64, 0x80 + n % 64]

/-- An uppercase hexadecimal digit. -/
def hexDigit (n : Nat) : Char :=
  if n < 10 then Char.ofNat (48 + n) else Char.ofNat (55 + n)

/-- The percent-escape of one character. -/
def percentEncode (c : Char) : List Char :=
  (utf8Bytes c.toNat).flatMap (fun b => ['%', hexDigit (b / 16), hexDigit (b % 16)])

/-- Line 16: `encodeURIComponent(slug)`. -/
def encodeURIComponentStr (s : String) : String :=
  String.mk (s.data.flatMap (fun c => if uriUnreserved c then [c] else percentEncode c))

/-- Lines 5–18: the header image URL built for a new feed item. -/
def buildHeaderImageUrl (uuid : String) (title fallback : Option String) : String :=
  "https://magicimage.net/image/" ++ encodeURIComponentStr (slugOf uuid title fallback) ++
    ".jpg?ratio=1:1"

/-! ## Responses and early exits -/

/-- The JSON body of a response: an error object `{ error: msg }` or the
success object `{ character_id, title, content, tldr }` of line 363. -/
inductive RespBody where
  | err (msg : String)
  | ok (character_id title content tldr : String)
deriving DecidableEq

/-- An HTTP response of the handler (status and JSON body). -/
structure Response where
  status : Nat
  body : RespBody
deriving DecidableEq

/-- How a phase leaves the handler early: a direct `return new Response(...)`,
or a thrown error that the outer `catch` (lines 375–386) will turn into a
500 response echoing the message. -/
inductive Exit where
  | ret (r : Response)
  | thrown (msg : String)
deriving DecidableEq

/-- The outer `try/catch`: a thrown message becomes `{ error: msg }` with
status 500 (lines 375–386). -/
def catchAll : Except Exit Response → Response
  | .ok r => r
  | .error (.ret r) => r
  | .error (.thrown m) => ⟨500, .err m⟩

/-! ## Identity resolution (source lines 57–95) -/

/-- The message of the `ReferenceError` raised on line 72: `payload` is read
inside the no-user branch, but its `let` declaration is line 96, after the
branch — the read is in the temporal dead zone and throws, so the service
token and `user_id` carried by the body are never consulted. -/
def payloadTdzMsg : String :=
  "ReferenceError: payload is accessed before its declaration"

/-- Lines 57–95: primary auth plus the service-token fallback branch.
`authError` is `supabaseUserClient.auth.getUser()`'s error, `authUserId` its
`user?.id` (`none` for a missing user or id; an empty id is falsy too).
An auth error returns 401 (lines 61–70).  When no user id is present the
branch at line 71 is entered and its first statement (line 72) reads
`payload`, which is declared only at line 96: the read throws a
`ReferenceError`, so the impersonation and 400/401 responses coded on lines
73–93 are unreachable. -/
def resolveUserPhase (authError : Option String) (authUserId : Option String) :
    Except Exit String :=
  match authError with
  | some _ => .error (.ret ⟨401, .err "Unauthorized"⟩)
  | none =>
    match authUserId with
    | some uid =>
      if uid != "" then .ok uid
      else .error (.thrown payloadTdzMsg)
    | none => .error (.thrown payloadTdzMsg)

/-! ## Targeted character lookup (source lines 133–150) -/

/-- Lines 134–150: fetch the character by `id` and `user_id` in one query
(`maybeSingle`).  `dbErr` models `targetedError` (line 140, thrown).  A
missing row — whether no such id exists or the row belongs to another user —
returns 404 "Character not found" (lines 141–149); `id` is the primary key,
so at most one row can match and `find?` models `maybeSingle`. -/
def targetedPhase (dbErr : Option String) (db : List Character)
    (reqId userId : String) : Except Exit Character :=
  match dbErr with
  | some m => .error (.thrown m)
  | none =>
    match db.find? (fun c => c.id == reqId && c.user_id == some userId) with
    | none => .error (.ret ⟨404, .err "Character not found"⟩)
    | some c => .ok c

/-! ## Model call and response extraction (source lines 216–308) -/

/-- Lines 244–248: a non-ok HTTP status from the model API is thrown.
`none` models `openaiRes.ok`. -/
def aiPhase (aiHttpFail : Option Nat) : Except Exit Unit :=
  match aiHttpFail with
  | some st => .error (.thrown ("OpenAI API returned " ++ toString st))
  | none => .ok ()

/-- The shape `assignFromParsed` (lines 256–267) reads from a parsed JSON
value: each field is `some` exactly when the value carries it as a string. -/
structure ParsedPayload where
  title : Option String
  content : Option String
  tldr : Option String
deriving DecidableEq

/-- One entry of an array-valued `message.content` (lines 279–289). -/
structure ContentPart where
  type : Option String
  text : Option String
deriving DecidableEq

/-- The possible shapes of `message.content`: a string, an array, or anything
else (absent, null, a number, …). -/
inductive MsgContent where
  | absent
  | str (s : String)
  | arr (parts : List ContentPart)
deriving DecidableEq

/-- `tool_calls[0].function.arguments` (lines 290–298): a string to be
JSON-parsed, or an already-parsed value. -/
inductive ToolArgs where
  | str (s : String)
  | obj (p : ParsedPayload)
deriving DecidableEq

/-- One element of `message.tool_calls`, reduced to its `function.arguments`. -/
structure ToolCall where
  arguments : Option ToolArgs
deriving DecidableEq

/-- `ai.choices[0].message` as the extractor inspects it. -/
structure ChoiceMessage where
  parsed : Option ParsedPayload
  content : MsgContent
  tool_calls : List ToolCall
deriving DecidableEq

/-- The three mutable locals `feedTitle`, `feedContent`, `feedTldr`
(lines 253–255), all initialised to `""`. -/
structure ExtractState where
  feedTitle : String
  feedContent : String
  feedTldr : String
deriving DecidableEq

/-- The initial extraction state. -/
def initExtract : ExtractState := ⟨"", "", ""⟩

/-- Lines 256–267: copy each of `title`, `content`, `tldr` from the payload
when it is a string there; leave the current value otherwise. -/
def assignFromParsed (st : ExtractState) (p : Option ParsedPayload) : ExtractState :=
  match p with
  | none => st
  | some q =>
    ⟨match q.title with | some v => v | none => st.feedTitle,
     match q.content with | some v => v | none => st.feedContent,
     match q.tldr with | some v => v | none => st.feedTldr⟩

/-- JavaScript truthiness of `arguments` (line 290): an empty string is
falsy, an object is truthy. -/
def argTruthy : ToolArgs → Bool
  | .str s => s != ""
  | .obj _ => true

/-- Line 280: the first part tagged `output_text` or `text`. -/
def findTextPart (parts : List ContentPart) : Option ContentPart :=
  parts.find? (fun p => p.type == some "output_text" || p.type == some "text")

/-- Lines 269–299: the `if / else if` dispatch over the message shape.
`pj` models `JSON.parse` restricted to the fields the extractor reads:
`pj s = none` means the parse threw.  Exactly one branch runs, chosen by the
shape of the message, never by whether an earlier branch produced fields:
a failed parse inside the string branch (lines 275–278) or the array branch
(lines 286–288) falls back to the raw text as `feedContent` rather than
trying a later branch. -/
def dispatchExtract (pj : String → Option ParsedPayload) (msg : Option ChoiceMessage) :
    ExtractState :=
  match msg with
  | none => initExtract
  | some m =>
    match m.parsed with
    | some p => assignFromParsed initExtract (some p)
    | none =>
      match m.content with
      | .str s =>
        match pj s with
        | some p => assignFromParsed initExtract (some p)
        | none => ⟨"", s, ""⟩
      | .arr parts =>
        match findTextPart parts with
        | some part =>
          match part.text with
          | some t =>
            if t != "" then
              match pj t with
              | some p =>
                let st := assignFromParsed initExtract (some p)
                if st.feedContent == "" then ⟨st.feedTitle, t, st.feedTldr⟩ else st
              | none => ⟨"", t, ""⟩
            else initExtract
          | none => initExtract
        | none => initExtract
      | .absent =>
        match m.tool_calls.head? with
        | some tc =>
          match tc.arguments with
          | some a =>
            if argTruthy a then
              match a with
              | .str s => assignFromParsed initExtract (pj s)
              | .obj p => assignFromParsed initExtract (some p)
            else initExtract
          | none => initExtract
        | none => initExtract

/-- Lines 300–308: after the dispatch, a blank `feedTitle`, `feedContent` or
`feedTldr` (empty or whitespace-only) throws an error naming the missing
field, checked in that order; otherwise the triple is returned. -/
def extractTriple (pj : String → Option ParsedPayload) (msg : Option ChoiceMessage) :
    Except Exit (String × String × String) :=
  let st := dispatchExtract pj msg
  if jsTrim st.feedTitle == "" then
    .error (.thrown "Feed title missing from AI response")
  else if jsTrim st.feedContent == "" then
    .error (.thrown "Feed content missing from AI response")
  else if jsTrim st.feedTldr == "" then
    .error (.thrown "Feed TL;DR missing from AI response")
  else
    .ok (st.feedTitle, st.feedContent, st.feedTldr)

/-- Strategy 2 as the specification words it: a string message body parsed
as JSON, yielding a triple when all three fields are present and non-empty. -/
def stringBodyYield (pj : String → Option ParsedPayload) (msg : Option ChoiceMessage) :
    Option (String × String × String) :=
  match msg with
  | none => none
  | some m =>
    match m.content with
    | .str s =>
      match pj s with
      | some p =>
        match p.title, p.content, p.tldr with
        | some a, some b, some c =>
          if jsTrim a != "" && jsTrim b != "" && jsTrim c != "" then some (a, b, c)
          else none
        | _, _, _ => none
      | none => none
    | _ => none

/-! ## Persistence (source lines 312–374) -/

/-- A row returned by the `feed_items` insert; only its `id` is read
(line 354). -/
structure InsertedRow where
  id : String
deriving DecidableEq

/-- The outcome the record store reports for the insert (lines 320–332):
`error` models `insertError`, `rows` the returned `data`. -/
structure InsertOutcome where
  error : Option String
  rows : List InsertedRow
deriving DecidableEq

/-- The feed item row the function inserts (lines 320–332). -/
structure FeedItemInsert where
  user_id : String
  character_id : String
  title : String
  content : String
  tldr : String
  character_name : Option String
  character_image_url : Option String
  header_image_url : String
  likes : Nat
  dislikes : Nat
  bookmarks : Nat
deriving DecidableEq

/-- Lines 320–332: the inserted row — extracted fields, the character's
denormalized name and image, a freshly built header image URL from title and
tldr, and zeroed counters. -/
def feedItemInsertOf (uuid : String) (sel : Character) (userId t c d : String) :
    FeedItemInsert :=
  ⟨userId, sel.id, t, c, d, sel.name, sel.image_url,
   buildHeaderImageUrl uuid (some t) (some d), 0, 0, 0⟩

/-- The message thrown when the insert reports success without a row
(line 339). -/
def insertNoRowMsg : String :=
  "Insert returned no row; check table constraints and RLS policies"

/-- Whether the narration collaborator throws when invoked
(`synthesizeNarrationToStorage`, line 352, lives outside this function). -/
inductive NarrationOutcome where
  | ok
  | throws
deriving DecidableEq

/-- Lines 349–361: when `buildNarrationText` yields non-empty text the
synthesis collaborator is invoked inside `try { ... } catch { console.error }`;
either way nothing of its outcome reaches the rest of the handler. -/
def narrationAbsorb (_narrText : Option String) (_narr : NarrationOutcome) : Unit :=
  ()

/-- Lines 312–374: the persistence sequence after a triple `(t, c, d)` was
extracted for the selected character.  The result pairs the handler outcome
with the value written to `characters.history` (`none` when the update was
never issued).  Insert error → thrown; success without a row → thrown with
the distinguished message, before the history update; history update error →
thrown; otherwise narration is triggered best-effort and the 200 response is
returned. -/
def persistPair (uuid : String) (sel : Character) (userId t c d : String)
    (ins : InsertOutcome) (histErr : Option String)
    (narrText : Option String) (narr : NarrationOutcome) :
    Except Exit Response × Option String :=
  let _payload := feedItemInsertOf uuid sel userId t c d
  match ins.error with
  | some m => (.error (.thrown m), none)
  | none =>
    match ins.rows.head? with
    | none => (.error (.thrown insertNoRowMsg), none)
    | some _row =>
      let histVal := updatedHistory (existingHistoryRaw sel) d
      match histErr with
      | some m => (.error (.thrown m), some histVal)
      | none =>
        let _ := narrationAbsorb narrText narr
        (.ok ⟨200, .ok sel.id t c d⟩, some histVal)

/-! ## The targeted-mode handler, end to end -/

/-- The oracles a targeted-mode request run depends on: the auth outcome,
the characters table and its query error, the requested id, the model API
outcome and message shape, `JSON.parse`, the insert and update outcomes,
and the narration collaborator. -/
structure TargetedEnv where
  authError : Option String
  authUserId : Option String
  dbErr : Option String
  db : List Character
  reqId : String
  aiHttpFail : Option Nat
  pj : String → Option ParsedPayload
  msg : Option ChoiceMessage
  ins : InsertOutcome
  histErr : Option String
  narrText : Option String
  narr : NarrationOutcome
  uuid : String

/-- The handler body for a request that carries a `character_id`, phase by
phase in source order, before the outer catch. -/
def pipelineTargeted (env : TargetedEnv) : Except Exit Response × Option String :=
  match resolveUserPhase env.authError env.authUserId with
  | .error e => (.error e, none)
  | .ok uid =>
    match targetedPhase env.dbErr env.db env.reqId uid with
    | .error e => (.error e, none)
    | .ok sel =>
      match aiPhase env.aiHttpFail with
      | .error e => (.error e, none)
      | .ok _ =>
        match extractTriple env.pj env.msg with
        | .error e => (.error e, none)
        | .ok (t, c, d) =>
          persistPair env.uuid sel uid t c d env.ins env.histErr env.narrText env.narr

/-- The complete targeted-mode handler: the pipeline under the outer
`try/catch`, paired with the history value written (if any). -/
def handlerTargeted (env : TargetedEnv) : Response × Option String :=
  let (r, h) := pipelineTargeted env
  (catchAll r, h)
/-! ## Helper lemmas about `lastN` and numbering -/

theorem lastN_length_le (n : Nat) (l : List α) : (lastN n l).length ≤ n := by
  simp only [lastN, List.length_drop]
  omega

theorem lastN_suffix (n : Nat) (l : List α) : lastN n l <:+ l :=
  List.drop_suffix _ _

theorem lastN_eq_self (n : Nat) (l : List α) (h : l.length ≤ n) : lastN n l = l := by
  simp [lastN, Nat.sub_eq_zero_of_le h]

theorem getLast?_lastN (n : Nat) (hn : 0 < n) (l : List α) (a : α) :
    (lastN n (l ++ [a])).getLast? = some a := by
  unfold lastN
  rw [List.drop_append_eq_append_drop]
  have hk : (l ++ [a]).length - n - l.length = 0 := by
    simp only [List.length_append, List.length_cons, List.length_nil]
    omega
  rw [hk, List.drop_zero, List.getLast?_append]
  rfl

theorem enumFrom_map_numbered (es : List String) : ∀ k : Nat,
    (List.enumFrom k es).map (fun p => toString (p.1 + 1) ++ ". " ++ p.2) =
      numberedFrom (k + 1) es := by
  induction es with
  | nil => intro k; rfl
  | cons e es ih =>
    intro k
    simp only [List.enumFrom_cons, List.map_cons, numberedFrom, ih (k + 1)]

/-! ## C6 — the history context builder -/

/-- C6: the history context builder is a pure function of the stored history
string that splits on newline, trims, drops empty lines, keeps the most
recent 10 entries in oldest-first order, emits the fixed sentinel when no
entries remain and otherwise a fixed header followed by the entries numbered
from 1 in oldest-first order. -/
theorem history_context_correct (s : String) :
    historyContext s = historyContextSpec s ∧
    (recentHistoryEntries s).length ≤ 10 ∧
    recentHistoryEntries s <:+ historyEntries s ∧
    (historyEntries s = [] → historyContext s = noHistorySentinel) := by
  refine ⟨?_, lastN_length_le _ _, lastN_suffix _ _, ?_⟩
  · unfold historyContext historyContextSpec recentHistoryEntries
    by_cases h : lastN 10 (historyEntries s) = []
    · simp [h]
    · have hl : 0 < (lastN 10 (historyEntries s)).length := by
        cases hx : lastN 10 (historyEntries s) with
        | nil => exact absurd hx h
        | cons a as => simp [hx]
      rw [if_pos hl, if_neg h]
      have := enumFrom_map_numbered (lastN 10 (historyEntries s)) 0
      simp only [List.enum]
      rw [this]
  · intro h
    unfold historyContext recentHistoryEntries
    simp [h, lastN]

/-! ## C4 — the history cap on write-back -/

/-- C4: after a successful run the value written back to
`characters.history` is the last 20 elements of (parsed non-empty trimmed
lines ++ [new tldr]) joined by newlines; the entry count never exceeds 20,
what is kept is a suffix (older entries are dropped first), and the new
tldr is the last entry. -/
theorem history_cap_correct (sel : Character) (uid t c d uuid : String)
    (ins : InsertOutcome) (nt : Option String) (narr : NarrationOutcome)
    (hins : ins.error = none) (hrow : ins.rows ≠ []) :
    (persistPair uuid sel uid t c d ins none nt narr).2 =
      some (updatedHistory (existingHistoryRaw sel) d) ∧
    (persistPair uuid sel uid t c d ins none nt narr).1 =
      Except.ok ⟨200, .ok sel.id t c d⟩ ∧
    updatedHistory (existingHistoryRaw sel) d =
      joinNl (lastN 20 (historyEntries (existingHistoryRaw sel) ++ [d])) ∧
    (truncatedHistoryEntries (existingHistoryRaw sel) d).length ≤ 20 ∧
    truncatedHistoryEntries (existingHistoryRaw sel) d <:+
      historyEntries (existingHistoryRaw sel) ++ [d] ∧
    (truncatedHistoryEntries (existingHistoryRaw sel) d).getLast? = some d := by
  obtain ⟨e, rows⟩ := ins
  cases e with
  | some m => exact absurd hins (by simp)
  | none =>
    cases rows with
    | nil => exact absurd rfl hrow
    | cons row rest =>
      refine ⟨rfl, rfl, rfl, lastN_length_le _ _, lastN_suffix _ _, ?_⟩
      exact getLast?_lastN 20 (by omega) _ _

/-- Witness for C4 at a concrete input: a character whose history holds two
entries, a successful insert and history update. -/
theorem history_cap_correct_witness :
    ((⟨none, [⟨"f1"⟩]⟩ : InsertOutcome).error = none ∧
     (⟨none, [⟨"f1"⟩]⟩ : InsertOutcome).rows ≠ []) ∧
    ((persistPair "U" ⟨"c1", none, none, none, some "u", none, none, some "a\nb"⟩
        "u" "T" "C" "D" ⟨none, [⟨"f1"⟩]⟩ none none .ok).2 =
      some (updatedHistory (existingHistoryRaw
        ⟨"c1", none, none, none, some "u", none, none, some "a\nb"⟩) "D") ∧
    (persistPair "U" ⟨"c1", none, none, none, some "u", none, none, some "a\nb"⟩
        "u" "T" "C" "D" ⟨none, [⟨"f1"⟩]⟩ none none .ok).1 =
      Except.ok ⟨200, .ok (⟨"c1", none, none, none, some "u", none, none,
        some "a\nb"⟩ : Character).id "T" "C" "D"⟩ ∧
    updatedHistory (existingHistoryRaw
        ⟨"c1", none, none, none, some "u", none, none, some "a\nb"⟩) "D" =
      joinNl (lastN 20 (historyEntries (existingHistoryRaw
        ⟨"c1", none, none, none, some "u", none, none, some "a\nb"⟩) ++ ["D"])) ∧
    (truncatedHistoryEntries (existingHistoryRaw
        ⟨"c1", none, none, none, some "u", none, none, some "a\nb"⟩) "D").length ≤ 20 ∧
    truncatedHistoryEntries (existingHistoryRaw
        ⟨"c1", none, none, none, some "u", none, none, some "a\nb"⟩) "D" <:+
      historyEntries (existingHistoryRaw
        ⟨"c1", none, none, none, some "u", none, none, some "a\nb"⟩) ++ ["D"] ∧
    (truncatedHistoryEntries (existingHistoryRaw
        ⟨"c1", none, none, none, some "u", none, none, some "a\nb"⟩) "D").getLast? =
      some "D") :=
  ⟨⟨rfl, by decide⟩,
   history_cap_correct ⟨"c1", none, none, none, some "u", none, none, some "a\nb"⟩
     "u" "T" "C" "D" "U" ⟨none, [⟨"f1"⟩]⟩ none .ok rfl (by decide)⟩

/-! ## C10 — prompt bound versus persistence bound -/

/-- C10 (amended): the 10-entry bound applies only to the prompt context;
the write-back appends the new tldr to all parsed lines and keeps the last
20, so for a history holding more than 10 but fewer than 20 parsed entries
the write-back keeps every parsed entry — in particular every entry older
than the 10 shown to the model — while the prompt context itself is a
strict 10-entry suffix. -/
theorem prompt_bound_vs_persistence (s t : String)
    (h10 : 10 < (historyEntries s).length)
    (h19 : (historyEntries s).length < 20) :
    (recentHistoryEntries s).length = 10 ∧
    recentHistoryEntries s ≠ historyEntries s ∧
    truncatedHistoryEntries s t = historyEntries s ++ [t] ∧
    (∀ e ∈ historyEntries s, e ∈ truncatedHistoryEntries s t) := by
  have hlen : (recentHistoryEntries s).length = 10 := by
    simp only [recentHistoryEntries, lastN, List.length_drop]
    omega
  have htr : truncatedHistoryEntries s t = historyEntries s ++ [t] := by
    have hle : (updatedHistoryEntries s t).length ≤ maxHistoryEntries := by
      simp only [updatedHistoryEntries, maxHistoryEntries, List.length_append,
        List.length_cons, List.length_nil]
      omega
    simpa [updatedHistoryEntries] using lastN_eq_self _ _ hle
  refine ⟨hlen, ?_, htr, ?_⟩
  · intro hc
    rw [hc] at hlen
    omega
  · intro e he
    rw [htr]
    exact List.mem_append_left _ he

/-- Witness for C10 at a concrete input: 11 parsed entries, all preserved
by the write-back while the prompt sees only the last 10. -/
theorem prompt_bound_vs_persistence_witness :
    (10 < (historyEntries "a\nb\nc\nd\ne\nf\ng\nh\ni\nj\nk").length ∧
     (historyEntries "a\nb\nc\nd\ne\nf\ng\nh\ni\nj\nk").length < 20) ∧
    ((recentHistoryEntries "a\nb\nc\nd\ne\nf\ng\nh\ni\nj\nk").length = 10 ∧
    recentHistoryEntries "a\nb\nc\nd\ne\nf\ng\nh\ni\nj\nk" ≠
      historyEntries "a\nb\nc\nd\ne\nf\ng\nh\ni\nj\nk" ∧
    truncatedHistoryEntries "a\nb\nc\nd\ne\nf\ng\nh\ni\nj\nk" "t" =
      historyEntries "a\nb\nc\nd\ne\nf\ng\nh\ni\nj\nk" ++ ["t"] ∧
    (∀ e ∈ historyEntries "a\nb\nc\nd\ne\nf\ng\nh\ni\nj\nk",
      e ∈ truncatedHistoryEntries "a\nb\nc\nd\ne\nf\ng\nh\ni\nj\nk" "t")) :=
  ⟨⟨by decide, by decide⟩,
   prompt_bound_vs_persistence "a\nb\nc\nd\ne\nf\ng\nh\ni\nj\nk" "t"
     (by decide) (by decide)⟩

/-- Counterexample to C10 as stated: a history holding exactly 20 parsed
entries has more than 10 entries, its oldest entry "a" is older than the 10
shown to the model, yet after a successful run the write-back (the last 20
of the 21 accumulated entries) no longer contains "a". -/
theorem prompt_bound_vs_persistence_counterexample :
    10 < (historyEntries
      "a\nb\nc\nd\ne\nf\ng\nh\ni\nj\nk\nl\nm\nn\no\np\nq\nr\ns\nu").length ∧
    "a" ∈ (historyEntries
      "a\nb\nc\nd\ne\nf\ng\nh\ni\nj\nk\nl\nm\nn\no\np\nq\nr\ns\nu").take
        ((historyEntries
          "a\nb\nc\nd\ne\nf\ng\nh\ni\nj\nk\nl\nm\nn\no\np\nq\nr\ns\nu").length - 10) ∧
    "a" ∉ truncatedHistoryEntries
      "a\nb\nc\nd\ne\nf\ng\nh\ni\nj\nk\nl\nm\nn\no\np\nq\nr\ns\nu" "t" := by
  refine ⟨by decide, by decide, by decide⟩

/-! ## C5 — insert success without a row -/

/-- C5: when the insert reports success but returns no row, the run throws
the distinguished no-row message, the outer catch turns it into a 500
response with that message, and the history update is never issued (the
write value of the pair is `none`). -/
theorem insert_no_row_fatal (uuid : String) (sel : Character) (uid t c d : String)
    (ins : InsertOutcome) (histErr : Option String)
    (nt : Option String) (narr : NarrationOutcome)
    (hins : ins.error = none) (hrows : ins.rows = []) :
    persistPair uuid sel uid t c d ins histErr nt narr =
      (Except.error (.thrown insertNoRowMsg), none) ∧
    catchAll (persistPair uuid sel uid t c d ins histErr nt narr).1 =
      ⟨500, .err insertNoRowMsg⟩ := by
  obtain ⟨e, rows⟩ := ins
  simp only at hins hrows
  subst hins
  subst hrows
  exact ⟨rfl, rfl⟩

/-- Witness for C5 at a concrete input: an insert outcome with no error and
zero rows. -/
theorem insert_no_row_fatal_witness :
    ((⟨none, []⟩ : InsertOutcome).error = none ∧
     (⟨none, []⟩ : InsertOutcome).rows = []) ∧
    (persistPair "U" ⟨"c1", none, none, none, some "u", none, none, none⟩
        "u" "T" "C" "D" ⟨none, []⟩ none none .ok =
      (Except.error (.thrown insertNoRowMsg), none) ∧
    catchAll (persistPair "U" ⟨"c1", none, none, none, some "u", none, none, none⟩
        "u" "T" "C" "D" ⟨none, []⟩ none none .ok).1 =
      ⟨500, .err insertNoRowMsg⟩) :=
  ⟨⟨rfl, rfl⟩,
   insert_no_row_fatal "U" ⟨"c1", none, none, none, some "u", none, none, none⟩
     "u" "T" "C" "D" ⟨none, []⟩ none none .ok rfl rfl⟩

/-! ## C7 — narration failures are absorbed -/

/-- C7: once the insert returned a row and the history update succeeded, the
narration outcome — including a thrown exception — is absorbed: the result
is identical for every narration text and outcome, and it is the 200
response carrying the character id and the generated fields, with the
success body rather than an error body. -/
theorem narration_failure_absorbed (uuid : String) (sel : Character)
    (uid t c d : String) (ins : InsertOutcome)
    (nt : Option String) (narr : NarrationOutcome)
    (hins : ins.error = none) (hrow : ins.rows ≠ []) :
    persistPair uuid sel uid t c d ins none nt narr =
      persistPair uuid sel uid t c d ins none none .ok ∧
    (persistPair uuid sel uid t c d ins none nt narr).1 =
      Except.ok ⟨200, .ok sel.id t c d⟩ ∧
    catchAll (persistPair uuid sel uid t c d ins none nt narr).1 =
      ⟨200, .ok sel.id t c d⟩ := by
  obtain ⟨e, rows⟩ := ins
  simp only at hins
  subst hins
  cases rows with
  | nil => exact absurd rfl hrow
  | cons row rest => exact ⟨rfl, rfl, rfl⟩

/-- Witness for C7 at a concrete input: a successful insert and history
update with a throwing narration collaborator. -/
theorem narration_failure_absorbed_witness :
    ((⟨none, [⟨"f1"⟩]⟩ : InsertOutcome).error = none ∧
     (⟨none, [⟨"f1"⟩]⟩ : InsertOutcome).rows ≠ []) ∧
    (persistPair "U" ⟨"c1", none, none, none, some "u", none, none, none⟩
        "u" "T" "C" "D" ⟨none, [⟨"f1"⟩]⟩ none (some "narration") .throws =
      persistPair "U" ⟨"c1", none, none, none, some "u", none, none, none⟩
        "u" "T" "C" "D" ⟨none, [⟨"f1"⟩]⟩ none none .ok ∧
    (persistPair "U" ⟨"c1", none, none, none, some "u", none, none, none⟩
        "u" "T" "C" "D" ⟨none, [⟨"f1"⟩]⟩ none (some "narration") .throws).1 =
      Except.ok ⟨200, .ok (⟨"c1", none, none, none, some "u", none, none,
        none⟩ : Character).id "T" "C" "D"⟩ ∧
    catchAll (persistPair "U" ⟨"c1", none, none, none, some "u", none, none, none⟩
        "u" "T" "C" "D" ⟨none, [⟨"f1"⟩]⟩ none (some "narration") .throws).1 =
      ⟨200, .ok (⟨"c1", none, none, none, some "u", none, none,
        none⟩ : Character).id "T" "C" "D"⟩) :=
  ⟨⟨rfl, by decide⟩,
   narration_failure_absorbed "U" ⟨"c1", none, none, none, some "u", none, none, none⟩
     "u" "T" "C" "D" ⟨none, [⟨"f1"⟩]⟩ (some "narration") .throws rfl (by decide)⟩

/-! ## C2 — the service-token impersonation branch -/

/-- C2: contrary to the specified impersonation contract, whenever primary
auth yields no user the handler reads `payload` (line 72) before its `let`
declaration (line 96); the read throws a `ReferenceError`, the outer catch
returns status 500, and the service token and `user_id` in the body are
never consulted — the specified impersonation, 400 and 401 outcomes of this
branch are unreachable.  Evaluated on a request carrying a valid service
token and user id. -/
theorem service_token_branch_unreachable :
    resolveUserPhase none none = Except.error (Exit.thrown payloadTdzMsg) ∧
    resolveUserPhase none (some "") = Except.error (Exit.thrown payloadTdzMsg) ∧
    handlerTargeted ⟨none, none, none, [], "char9", none, fun _ => none, none,
        ⟨none, []⟩, none, none, .ok, "U"⟩ =
      (⟨500, .err payloadTdzMsg⟩, none) ∧
    (⟨500, .err payloadTdzMsg⟩ : Response).status ≠ 400 ∧
    (⟨500, .err payloadTdzMsg⟩ : Response).status ≠ 401 :=
  ⟨rfl, rfl, rfl, by decide, by decide⟩

/-! ## C8 — targeted lookup leaks no ownership information -/

theorem resolveUserPhase_ret_eq (a u : Option String) (r : Response)
    (h : resolveUserPhase a u = .error (.ret r)) : r = ⟨401, .err "Unauthorized"⟩ := by
  unfold resolveUserPhase at h
  split at h
  · simp only [Except.error.injEq, Exit.ret.injEq] at h
    exact h.symm
  · split at h
    · split at h <;> simp_all
    · simp_all

theorem targetedPhase_ret_eq (e : Option String) (db : List Character)
    (rid uid : String) (r : Response)
    (h : targetedPhase e db rid uid = .error (.ret r)) :
    r = ⟨404, .err "Character not found"⟩ := by
  unfold targetedPhase at h
  split at h
  · simp_all
  · split at h <;> simp_all

theorem aiPhase_not_ret (a : Option Nat) (r : Response) :
    aiPhase a ≠ .error (.ret r) := by
  intro h
  unfold aiPhase at h
  split at h <;> simp_all

theorem extractTriple_not_ret (pj : String → Option ParsedPayload)
    (m : Option ChoiceMessage) (r : Response) :
    extractTriple pj m ≠ .error (.ret r) := by
  intro h
  simp only [extractTriple] at h
  split at h
  · simp_all
  · split at h
    · simp_all
    · split at h <;> simp_all

theorem persistPair_fst_cases (uuid : String) (sel : Character) (uid t c d : String)
    (ins : InsertOutcome) (histErr : Option String)
    (nt : Option String) (narr : NarrationOutcome) :
    (persistPair uuid sel uid t c d ins histErr nt narr).1 =
      Except.ok ⟨200, .ok sel.id t c d⟩ ∨
    (∃ m, (persistPair uuid sel uid t c d ins histErr nt narr).1 =
      Except.error (.thrown m)) := by
  obtain ⟨e, rows⟩ := ins
  cases e with
  | some m => exact Or.inr ⟨m, rfl⟩
  | none =>
    cases rows with
    | nil => exact Or.inr ⟨insertNoRowMsg, rfl⟩
    | cons row rest =>
      cases histErr with
      | some m => exact Or.inr ⟨m, rfl⟩
      | none => exact Or.inl rfl

theorem handlerTargeted_status_ne_403 (env : TargetedEnv) :
    (handlerTargeted env).1.status ≠ 403 := by
  rcases hP : pipelineTargeted env with ⟨r, hv⟩
  have hH : (handlerTargeted env).1 = catchAll r := by
    unfold handlerTargeted
    rw [hP]
  rw [hH]
  cases hA : resolveUserPhase env.authError env.authUserId with
  | error e =>
    simp only [pipelineTargeted, hA, Prod.mk.injEq] at hP
    obtain ⟨hr, -⟩ := hP
    subst hr
    cases e with
    | ret r2 =>
      have := resolveUserPhase_ret_eq _ _ _ hA
      subst this
      simp [catchAll]
    | thrown m => simp [catchAll]
  | ok uid =>
    cases hT : targetedPhase env.dbErr env.db env.reqId uid with
    | error e =>
      simp only [pipelineTargeted, hA, hT, Prod.mk.injEq] at hP
      obtain ⟨hr, -⟩ := hP
      subst hr
      cases e with
      | ret r2 =>
        have := targetedPhase_ret_eq _ _ _ _ _ hT
        subst this
        simp [catchAll]
      | thrown m => simp [catchAll]
    | ok sel =>
      cases hAi : aiPhase env.aiHttpFail with
      | error e =>
        simp only [pipelineTargeted, hA, hT, hAi, Prod.mk.injEq] at hP
        obtain ⟨hr, -⟩ := hP
        subst hr
        cases e with
        | ret r2 => exact absurd hAi (aiPhase_not_ret _ _)
        | thrown m => simp [catchAll]
      | ok u =>
        cases hE : extractTriple env.pj env.msg with
        | error e =>
          simp only [pipelineTargeted, hA, hT, hAi, hE, Prod.mk.injEq] at hP
          obtain ⟨hr, -⟩ := hP
          subst hr
          cases e with
          | ret r2 => exact absurd hE (extractTriple_not_ret _ _ _)
          | thrown m => simp [catchAll]
        | ok tcd =>
          obtain ⟨t, c, d⟩ := tcd
          simp only [pipelineTargeted, hA, hT, hAi, hE] at hP
          have hr : (persistPair env.uuid sel uid t c d env.ins env.histErr
              env.narrText env.narr).1 = r := by
            rw [hP]
          rcases persistPair_fst_cases env.uuid sel uid t c d env.ins env.histErr
              env.narrText env.narr with hok | ⟨m, hm⟩
          · rw [hr] at hok
            rw [hok]
            simp [catchAll]
          · rw [hr] at hm
            rw [hm]
            simp [catchAll]

/-- C8: in targeted mode a request for a character id that matches no row of
the caller — because no character has that id, or because the character with
that id belongs to a different user — produces one and the same observable
outcome, the 404 "Character not found" response; and no run of the targeted
handler ever returns status 403. -/
theorem targeted_lookup_indistinguishable (db1 db2 : List Character)
    (rid uid : String)
    (h1 : ∀ ch ∈ db1, ch.id ≠ rid)
    (h2 : ∀ ch ∈ db2, ch.id = rid → ch.user_id ≠ some uid) :
    targetedPhase none db1 rid uid = targetedPhase none db2 rid uid ∧
    targetedPhase none db1 rid uid =
      Except.error (.ret ⟨404, .err "Character not found"⟩) ∧
    (∀ env : TargetedEnv, (handlerTargeted env).1.status ≠ 403) := by
  have f1 : db1.find? (fun c => c.id == rid && c.user_id == some uid) = none := by
    rw [List.find?_eq_none]
    intro x hx hc
    simp only [Bool.and_eq_true, beq_iff_eq] at hc
    exact h1 x hx hc.1
  have f2 : db2.find? (fun c => c.id == rid && c.user_id == some uid) = none := by
    rw [List.find?_eq_none]
    intro x hx hc
    simp only [Bool.and_eq_true, beq_iff_eq] at hc
    exact h2 x hx hc.1 hc.2
  refine ⟨?_, ?_, fun env => handlerTargeted_status_ne_403 env⟩
  · unfold targetedPhase
    rw [f1, f2]
  · unfold targetedPhase
    rw [f1]

/-- Witness for C8 at a concrete input: an empty table versus a table whose
only character has the requested id but a different owner. -/
theorem targeted_lookup_indistinguishable_witness :
    ((∀ ch ∈ ([] : List Character), ch.id ≠ "char9") ∧
     (∀ ch ∈ [(⟨"char9", none, none, none, some "other", none, none, none⟩ : Character)],
        ch.id = "char9" → ch.user_id ≠ some "me")) ∧
    (targetedPhase none [] "char9" "me" =
      targetedPhase none [⟨"char9", none, none, none, some "other", none, none, none⟩]
        "char9" "me" ∧
    targetedPhase none [] "char9" "me" =
      Except.error (.ret ⟨404, .err "Character not found"⟩) ∧
    (∀ env : TargetedEnv, (handlerTargeted env).1.status ≠ 403)) :=
  ⟨⟨by decide, by decide⟩,
   targeted_lookup_indistinguishable []
     [⟨"char9", none, none, none, some "other", none, none, none⟩]
     "char9" "me" (by decide) (by decide)⟩

/-! ## C3 — response extraction dispatch -/

/-- C3 (amended): the extractor runs exactly one strategy, selected by the
shape of the message (parsed object first; else string content; else array
content; else tool-call arguments) — it does not try later strategies when
the selected one yields nothing: with a parsed payload present the other
shapes are ignored entirely, and a parse failure in the string branch falls
back to the raw text as content (leaving title and tldr empty, so the
request fails naming the title) instead of attempting another strategy.
The request succeeds if and only if the selected strategy leaves all of
title, content and tldr non-blank, and failures name the missing field. -/
theorem extract_dispatch_correct (pj : String → Option ParsedPayload)
    (msg : Option ChoiceMessage) (p : ParsedPayload) (c : MsgContent)
    (tcs : List ToolCall) (s : String) (hs : pj s = none) :
    ((∃ a b e, extractTriple pj msg = Except.ok (a, b, e)) ↔
      (jsTrim (dispatchExtract pj msg).feedTitle ≠ "" ∧
       jsTrim (dispatchExtract pj msg).feedContent ≠ "" ∧
       jsTrim (dispatchExtract pj msg).feedTldr ≠ "")) ∧
    extractTriple pj (some ⟨some p, c, tcs⟩) =
      extractTriple pj (some ⟨some p, .absent, []⟩) ∧
    dispatchExtract pj (some ⟨none, .str s, tcs⟩) = ⟨"", s, ""⟩ ∧
    extractTriple pj (some ⟨none, .str s, tcs⟩) =
      Except.error (.thrown "Feed title missing from AI response") := by
  have h3 : dispatchExtract pj (some ⟨none, MsgContent.str s, tcs⟩) = ⟨"", s, ""⟩ := by
    simp [dispatchExtract, hs]
  refine ⟨?_, rfl, h3, ?_⟩
  · simp only [extractTriple]
    split
    · rename_i h1
      simp only [beq_iff_eq] at h1
      simp [h1]
    · rename_i h1
      split
      · rename_i h2
        simp only [beq_iff_eq] at h2
        simp [h2]
      · rename_i h2
        split
        · rename_i h3x
          simp only [beq_iff_eq] at h3x
          simp [h3x]
        · rename_i h3x
          simp only [beq_iff_eq] at h1 h2 h3x
          simp [h1, h2, h3x]
  · unfold extractTriple
    rw [h3]
    rfl

/-- Witness for C3 at a concrete input: a message whose parsed payload is an
object carrying all three fields, with no other shapes present, and a
`JSON.parse` model that always throws. -/
theorem extract_dispatch_correct_witness :
    ((fun _ : String => (none : Option ParsedPayload)) "X" = none) ∧
    (((∃ a b e, extractTriple (fun _ => none)
        (some ⟨some ⟨some "T", some "C", some "D"⟩, .absent, []⟩) =
          Except.ok (a, b, e)) ↔
      (jsTrim (dispatchExtract (fun _ => none)
        (some ⟨some ⟨some "T", some "C", some "D"⟩, .absent, []⟩)).feedTitle ≠ "" ∧
       jsTrim (dispatchExtract (fun _ => none)
        (some ⟨some ⟨some "T", some "C", some "D"⟩, .absent, []⟩)).feedContent ≠ "" ∧
       jsTrim (dispatchExtract (fun _ => none)
        (some ⟨some ⟨some "T", some "C", some "D"⟩, .absent, []⟩)).feedTldr ≠ "")) ∧
    extractTriple (fun _ => none)
        (some ⟨some ⟨some "T", some "C", some "D"⟩, .str "ignored", [⟨some (.str "zz")⟩]⟩) =
      extractTriple (fun _ => none)
        (some ⟨some ⟨some "T", some "C", some "D"⟩, .absent, []⟩) ∧
    dispatchExtract (fun _ => none)
        (some ⟨none, .str "X", [⟨some (.str "zz")⟩]⟩) = ⟨"", "X", ""⟩ ∧
    extractTriple (fun _ => none)
        (some ⟨none, .str "X", [⟨some (.str "zz")⟩]⟩) =
      Except.error (.thrown "Feed title missing from AI response")) :=
  ⟨rfl,
   extract_dispatch_correct (fun _ => none)
     (some ⟨some ⟨some "T", some "C", some "D"⟩, .absent, []⟩)
     ⟨some "T", some "C", some "D"⟩ (.str "ignored") [⟨some (.str "zz")⟩] "X" rfl⟩

/-- Counterexample to C3 as stated: the parsed-payload shape is present but
empty while the string body parses to a full non-empty triple; the claimed
fall-through would succeed with that triple, but the extractor selects only
the parsed branch and the request fails naming the missing title. -/
theorem extract_fallthrough_counterexample :
    stringBodyYield
        (fun s => if s == "J" then some ⟨some "T", some "C", some "D"⟩ else none)
        (some ⟨some ⟨none, none, none⟩, .str "J", []⟩) = some ("T", "C", "D") ∧
    extractTriple
        (fun s => if s == "J" then some ⟨some "T", some "C", some "D"⟩ else none)
        (some ⟨some ⟨none, none, none⟩, .str "J", []⟩) =
      Except.error (.thrown "Feed title missing from AI response") :=
  ⟨rfl, rfl⟩

/-! ## C9 — the header image slug -/

theorem mem_collapseWsAux (ch : Char) : ∀ (l : List Char) (b : Bool),
    ch ∈ collapseWsAux l b → ch = '-' ∨ (ch ∈ l ∧ jsSpace ch = false) := by
  intro l
  induction l with
  | nil =>
    intro b h
    simp [collapseWsAux] at h
  | cons d rest ih =>
    intro b h
    by_cases hd : jsSpace d = true
    · cases b with
      | true =>
        simp only [collapseWsAux, hd, if_true] at h
        rcases ih true h with h1 | ⟨h2, h3⟩
        · exact Or.inl h1
        · exact Or.inr ⟨List.mem_cons_of_mem _ h2, h3⟩
      | false =>
        simp only [collapseWsAux, hd, if_true, Bool.false_eq_true, if_false] at h
        rcases List.mem_cons.mp h with h1 | h2
        · exact Or.inl h1
        · rcases ih true h2 with h1 | ⟨h2b, h3⟩
          · exact Or.inl h1
          · exact Or.inr ⟨List.mem_cons_of_mem _ h2b, h3⟩
    · simp only [collapseWsAux, hd, if_false] at h
      rcases List.mem_cons.mp h with h1 | h2
      · subst h1
        exact Or.inr ⟨List.mem_cons_self _ _, by simpa using hd⟩
      · rcases ih false h2 with h1 | ⟨h2b, h3⟩
        · exact Or.inl h1
        · exact Or.inr ⟨List.mem_cons_of_mem _ h2b, h3⟩

theorem mem_jsTrimChars (ch : Char) (l : List Char) (h : ch ∈ jsTrimChars l) :
    ch ∈ l := by
  unfold jsTrimChars at h
  rw [List.mem_reverse] at h
  have h1 := (List.dropWhile_sublist jsSpace).subset h
  rw [List.mem_reverse] at h1
  exact (List.dropWhile_sublist jsSpace).subset h1

theorem slug_chars_admissible (title fallback : Option String) :
    ∀ ch ∈ cleanedSlugChars title fallback,
      ('a' ≤ ch ∧ ch ≤ 'z') ∨ ('0' ≤ ch ∧ ch ≤ '9') ∨ ch = '-' := by
  intro ch h
  unfold cleanedSlugChars at h
  have h1 := List.mem_of_mem_take h
  unfold collapseWs at h1
  rcases mem_collapseWsAux ch _ false h1 with h2 | ⟨h2, h3⟩
  · exact Or.inr (Or.inr h2)
  · have h4 := mem_jsTrimChars ch _ h2
    have h5 := List.of_mem_filter h4
    simp only [slugKeep, Bool.or_eq_true, Bool.and_eq_true, decide_eq_true_eq] at h5
    rcases h5 with ((⟨ha, hb⟩ | ⟨ha, hb⟩) | hsp) | hdash
    · exact Or.inl ⟨ha, hb⟩
    · exact Or.inr (Or.inl ⟨ha, hb⟩)
    · rw [h3] at hsp
      cases hsp
    · exact Or.inr (Or.inr hdash)

theorem slug_char_unreserved (ch : Char)
    (h : ('a' ≤ ch ∧ ch ≤ 'z') ∨ ('0' ≤ ch ∧ ch ≤ '9') ∨ ch = '-') :
    uriUnreserved ch = true := by
  simp only [uriUnreserved, Bool.or_eq_true, Bool.and_eq_true, decide_eq_true_eq]
  rcases h with ⟨h1, h2⟩ | ⟨h1, h2⟩ | rfl <;> tauto

theorem flatMap_unreserved_id (l : List Char)
    (h : ∀ c ∈ l, uriUnreserved c = true) :
    l.flatMap (fun c => if uriUnreserved c then [c] else percentEncode c) = l := by
  induction l with
  | nil => rfl
  | cons c rest ih =>
    rw [List.flatMap_cons, if_pos (h c (List.mem_cons_self _ _)),
      ih (fun x hx => h x (List.mem_cons_of_mem _ hx))]
    rfl

theorem encode_slug_id (core : List Char)
    (h : ∀ c ∈ core, uriUnreserved c = true) :
    encodeURIComponentStr (String.mk core) = String.mk core := by
  unfold encodeURIComponentStr
  rw [show (String.mk core).data = core from rfl, flatMap_unreserved_id core h]

/-- C9: every inserted feed item carries a header image URL that embeds the
slug derived from the title / tldr text; the cleaned slug contains only
lowercase letters, digits and hyphens, is at most 140 characters long, a
random fallback slug replaces it exactly when the cleaned text is empty, and
the URL embeds the cleaned slug verbatim (percent-encoding leaves its
characters untouched); the counters of the inserted row start at zero. -/
theorem header_image_url_slug (uuid : String) (sel : Character)
    (uid t c d : String) :
    (feedItemInsertOf uuid sel uid t c d).header_image_url =
      "https://magicimage.net/image/" ++
        encodeURIComponentStr (slugOf uuid (some t) (some d)) ++ ".jpg?ratio=1:1" ∧
    (∀ ch ∈ cleanedSlugChars (some t) (some d),
      ('a' ≤ ch ∧ ch ≤ 'z') ∨ ('0' ≤ ch ∧ ch ≤ '9') ∨ ch = '-') ∧
    (cleanedSlugChars (some t) (some d)).length ≤ 140 ∧
    slugOf uuid (some t) (some d) =
      (if cleanedSlugChars (some t) (some d) = [] then "story-image-" ++ uuid
       else String.mk (cleanedSlugChars (some t) (some d))) ∧
    encodeURIComponentStr (String.mk (cleanedSlugChars (some t) (some d))) =
      String.mk (cleanedSlugChars (some t) (some d)) ∧
    (feedItemInsertOf uuid sel uid t c d).likes = 0 ∧
    (feedItemInsertOf uuid sel uid t c d).dislikes = 0 ∧
    (feedItemInsertOf uuid sel uid t c d).bookmarks = 0 := by
  refine ⟨rfl, slug_chars_admissible _ _, ?_, rfl, ?_, rfl, rfl, rfl⟩
  · unfold cleanedSlugChars
    rw [List.length_take]
    exact Nat.min_le_left _ _
  · apply encode_slug_id
    intro ch hch
    exact slug_char_unreserved ch (slug_chars_admissible _ _ ch hch)

/-! ## C1 — weighted random selection -/

theorem weight_pos (l : Option Int) : 0 < weight l := by
  unfold weight
  have h := Real.sqrt_nonneg (((max (l.getD 0) 0 : ℤ) : ℝ))
  linarith

theorem weightsOf_pos (cs : List Character) : ∀ w ∈ weightsOf cs, 0 < w := by
  intro w hw
  simp only [weightsOf, List.mem_map] at hw
  obtain ⟨ch, -, rfl⟩ := hw
  exact weight_pos ch.likes

theorem sum_take_le_sum (l : List ℝ) (h : ∀ w ∈ l, 0 ≤ w) (j : Nat) :
    (l.take j).sum ≤ l.sum := by
  conv_rhs => rw [← List.take_append_drop j l]
  rw [List.sum_append]
  have h0 : 0 ≤ (l.drop j).sum :=
    List.sum_nonneg (fun x hx => h x (List.mem_of_mem_drop hx))
  linarith

theorem sum_take_nonneg (l : List ℝ) (h : ∀ w ∈ l, 0 ≤ w) (j : Nat) :
    0 ≤ (l.take j).sum :=
  List.sum_nonneg (fun x hx => h x (List.mem_of_mem_take hx))

theorem sum_take_mono (l : List ℝ) (h : ∀ w ∈ l, 0 ≤ w) {j k : Nat} (hjk : j ≤ k) :
    (l.take j).sum ≤ (l.take k).sum := by
  have heq : l.take j = (l.take k).take j := by
    rw [List.take_take, Nat.min_eq_left hjk]
  rw [heq]
  exact sum_take_le_sum (l.take k) (fun x hx => h x (List.mem_of_mem_take hx)) j

theorem selectLoop_eq_firstHit (ws : List ℝ) : ∀ (r : ℝ) (k : Nat),
    0 ≤ r → r < ws.sum → selectLoop ws r k = k + firstHit ws r := by
  induction ws with
  | nil =>
    intro r k h0 hr
    simp only [List.sum_nil] at hr
    linarith
  | cons w ws ih =>
    intro r k h0 hr
    by_cases hc : r - w ≤ 0
    · simp [selectLoop, firstHit, hc]
    · have h0f : 0 ≤ r - w := le_of_lt (lt_of_not_le hc)
      have hrf : r - w < ws.sum := by
        simp only [List.sum_cons] at hr
        linarith
      simp only [selectLoop, firstHit]
      rw [if_neg hc, if_neg hc, ih (r - w) (k + 1) h0f hrf]
      omega

theorem firstHit_lt_length (ws : List ℝ) : ∀ r : ℝ,
    0 ≤ r → r < ws.sum → firstHit ws r < ws.length := by
  induction ws with
  | nil =>
    intro r h0 hr
    simp only [List.sum_nil] at hr
    linarith
  | cons w ws ih =>
    intro r h0 hr
    by_cases hc : r - w ≤ 0
    · simp [firstHit, hc]
    · have h0f : 0 ≤ r - w := le_of_lt (lt_of_not_le hc)
      have hrf : r - w < ws.sum := by
        simp only [List.sum_cons] at hr
        linarith
      simp only [firstHit]
      rw [if_neg hc]
      have := ih (r - w) h0f hrf
      simp only [List.length_cons]
      omega

theorem firstHit_le_cum (ws : List ℝ) : ∀ r : ℝ, firstHit ws r < ws.length →
    r ≤ (ws.take (firstHit ws r + 1)).sum := by
  induction ws with
  | nil =>
    intro r h
    simp at h
  | cons w ws ih =>
    intro r h
    by_cases hc : r - w ≤ 0
    · have hf : firstHit (w :: ws) r = 0 := by simp [firstHit, hc]
      rw [hf]
      simp only [List.take_succ_cons, List.take_zero, List.sum_cons, List.sum_nil]
      linarith
    · have hf : firstHit (w :: ws) r = firstHit ws (r - w) + 1 := by
        simp [firstHit, hc]
      rw [hf] at h ⊢
      simp only [List.length_cons] at h
      have hlt : firstHit ws (r - w) < ws.length := by omega
      have := ih (r - w) hlt
      simp only [List.take_succ_cons, List.sum_cons]
      linarith

theorem firstHit_min (ws : List ℝ) : ∀ (r : ℝ) (j : Nat), j < firstHit ws r →
    (ws.take (j + 1)).sum < r := by
  induction ws with
  | nil =>
    intro r j h
    simp [firstHit] at h
  | cons w ws ih =>
    intro r j h
    by_cases hc : r - w ≤ 0
    · rw [show firstHit (w :: ws) r = 0 by simp [firstHit, hc]] at h
      omega
    · rw [show firstHit (w :: ws) r = firstHit ws (r - w) + 1 by
        simp [firstHit, hc]] at h
      have hw : w < r := by
        have := lt_of_not_le hc
        linarith
      cases j with
      | zero =>
        simp only [List.take_succ_cons, List.take_zero, List.sum_cons, List.sum_nil]
        linarith
      | succ j2 =>
        have h2 : j2 < firstHit ws (r - w) := by omega
        have := ih (r - w) j2 h2
        simp only [List.take_succ_cons, List.sum_cons]
        linarith

theorem selectIndex_eq_iff (ws : List ℝ) (r : ℝ)
    (h0 : 0 ≤ r) (hr : r < ws.sum) (i : Nat) (hi : i < ws.length) :
    selectIndex ws r = i ↔
      (r - cumWeight ws i ≤ 0 ∧ ∀ j < i, 0 < r - cumWeight ws j) := by
  have hsel : selectIndex ws r = firstHit ws r := by
    simpa [selectIndex] using selectLoop_eq_firstHit ws r 0 h0 hr
  constructor
  · intro he
    rw [hsel] at he
    subst he
    refine ⟨?_, ?_⟩
    · have h1 := firstHit_le_cum ws r (firstHit_lt_length ws r h0 hr)
      unfold cumWeight
      linarith
    · intro j hj
      have h2 := firstHit_min ws r j hj
      unfold cumWeight
      linarith
  · rintro ⟨hle, hmin⟩
    rw [hsel]
    have hfl : firstHit ws r < ws.length := firstHit_lt_length ws r h0 hr
    by_contra hne
    rcases Nat.lt_or_ge (firstHit ws r) i with hlt | hge
    · have h1 := firstHit_le_cum ws r hfl
      have h2 := hmin (firstHit ws r) hlt
      unfold cumWeight at h2
      linarith
    · have hgt : i < firstHit ws r := by omega
      have h1 := firstHit_min ws r i hgt
      unfold cumWeight at hle
      linarith

theorem drawSet_Ioo_subset (ws : List ℝ) (hw : ∀ w ∈ ws, 0 < w) (i : Nat)
    (hi : i < ws.length) :
    Set.Ioo (preWeight ws i) (cumWeight ws i) ⊆ drawSet ws i := by
  rintro r ⟨h1, h2⟩
  have hnn : ∀ w ∈ ws, 0 ≤ w := fun w hwm => le_of_lt (hw w hwm)
  have hpre0 : 0 ≤ preWeight ws i := sum_take_nonneg ws hnn i
  have h0 : 0 ≤ r := le_trans hpre0 (le_of_lt h1)
  have hcums : cumWeight ws i ≤ ws.sum := sum_take_le_sum ws hnn (i + 1)
  have hr : r < ws.sum := lt_of_lt_of_le h2 hcums
  refine ⟨h0, hr, ?_⟩
  rw [selectIndex_eq_iff ws r h0 hr i hi]
  refine ⟨by linarith, ?_⟩
  intro j hj
  have hcp : cumWeight ws j ≤ preWeight ws i := by
    unfold cumWeight preWeight
    exact sum_take_mono ws hnn (by omega : j + 1 ≤ i)
  linarith

theorem drawSet_subset_Icc (ws : List ℝ) (i : Nat)
    (hi : i < ws.length) :
    drawSet ws i ⊆ Set.Icc (preWeight ws i) (cumWeight ws i) := by
  rintro r ⟨h0, hr, hsel⟩
  rw [selectIndex_eq_iff ws r h0 hr i hi] at hsel
  obtain ⟨hle, hmin⟩ := hsel
  constructor
  · cases i with
    | zero => simpa [preWeight] using h0
    | succ i2 =>
      have := hmin i2 (Nat.lt_succ_self i2)
      have hpc : preWeight ws (i2 + 1) = cumWeight ws i2 := rfl
      rw [hpc]
      linarith
  · linarith

theorem cum_sub_pre (ws : List ℝ) (i : Nat) (hi : i < ws.length) :
    cumWeight ws i - preWeight ws i = ws.get ⟨i, hi⟩ := by
  unfold cumWeight preWeight
  rw [List.sum_take_succ ws i hi, List.get_eq_getElem]
  ring

theorem drawSet_volume (ws : List ℝ) (hw : ∀ w ∈ ws, 0 < w) (i : Nat)
    (hi : i < ws.length) :
    MeasureTheory.volume (drawSet ws i) = ENNReal.ofReal (ws.get ⟨i, hi⟩) := by
  have h1 : MeasureTheory.volume (Set.Ioo (preWeight ws i) (cumWeight ws i)) ≤
      MeasureTheory.volume (drawSet ws i) :=
    MeasureTheory.measure_mono (drawSet_Ioo_subset ws hw i hi)
  have h2 : MeasureTheory.volume (drawSet ws i) ≤
      MeasureTheory.volume (Set.Icc (preWeight ws i) (cumWeight ws i)) :=
    MeasureTheory.measure_mono (drawSet_subset_Icc ws i hi)
  rw [Real.volume_Ioo, cum_sub_pre ws i hi] at h1
  rw [Real.volume_Icc, cum_sub_pre ws i hi] at h2
  exact le_antisymm h2 h1

theorem drawSet_ordConnected (ws : List ℝ) (hw : ∀ w ∈ ws, 0 < w) (i : Nat)
    (hi : i < ws.length) : (drawSet ws i).OrdConnected := by
  constructor
  intro x hx y hy z hz
  have hxI := drawSet_subset_Icc ws i hi hx
  have hyI := drawSet_subset_Icc ws i hi hy
  obtain ⟨hz1, hz2⟩ := hz
  rcases eq_or_lt_of_le (le_trans hxI.1 hz1 : preWeight ws i ≤ z) with hza | hza
  · have hx1 : x = z := by
      apply le_antisymm hz1
      rw [← hza]
      exact hxI.1
    exact hx1 ▸ hx
  · rcases eq_or_lt_of_le (le_trans hz2 hyI.2 : z ≤ cumWeight ws i) with hzb | hzb
    · have hy1 : y = z := by
        apply le_antisymm _ hz2
        rw [hzb]
        exact hyI.2
      exact hy1 ▸ hy
    · exact drawSet_Ioo_subset ws hw i hi ⟨hza, hzb⟩

/-- C1: in weighted-random mode every character of a non-empty list weighs
`1 + sqrt(max(likes, 0))` (absent likes read as 0); for a draw `r` in
`[0, totalWeight)` the walk selects exactly the first index `i` at which
`r` minus the cumulative weight of indices `0..i` is `≤ 0`; and the set of
draws in `[0, totalWeight)` selecting index `i` is an interval — squeezed
between the open and closed intervals from the preceding cumulative weight
to the cumulative weight through `i`, order-connected, and of measure equal
to the `i`-th weight. -/
theorem weighted_selection_correct (cs : List Character) (r : ℝ) (i : Nat)
    (hcs : cs ≠ []) (h0 : 0 ≤ r) (hr : r < totalWeight cs) (hi : i < cs.length) :
    (∀ ch ∈ cs, weight ch.likes =
      1 + Real.sqrt (max ((ch.likes.getD 0 : ℤ) : ℝ) 0)) ∧
    (selectIndex (weightsOf cs) r = i ↔
      (r - cumWeight (weightsOf cs) i ≤ 0 ∧
       ∀ j < i, 0 < r - cumWeight (weightsOf cs) j)) ∧
    Set.Ioo (preWeight (weightsOf cs) i) (cumWeight (weightsOf cs) i) ⊆
      drawSet (weightsOf cs) i ∧
    drawSet (weightsOf cs) i ⊆
      Set.Icc (preWeight (weightsOf cs) i) (cumWeight (weightsOf cs) i) ∧
    (drawSet (weightsOf cs) i).OrdConnected ∧
    MeasureTheory.volume (drawSet (weightsOf cs) i) =
      ENNReal.ofReal (cumWeight (weightsOf cs) i - preWeight (weightsOf cs) i) ∧
    cumWeight (weightsOf cs) i - preWeight (weightsOf cs) i =
      (weightsOf cs).getD i 0 := by
  have hlen : i < (weightsOf cs).length := by simpa [weightsOf] using hi
  have hw := weightsOf_pos cs
  have hrs : r < (weightsOf cs).sum := hr
  refine ⟨?_, selectIndex_eq_iff (weightsOf cs) r h0 hrs i hlen,
    drawSet_Ioo_subset _ hw i hlen, drawSet_subset_Icc _ i hlen,
    drawSet_ordConnected _ hw i hlen, ?_, ?_⟩
  · intro ch hch
    unfold weight
    push_cast
    ring
  · rw [drawSet_volume (weightsOf cs) hw i hlen, cum_sub_pre (weightsOf cs) i hlen]
  · rw [cum_sub_pre (weightsOf cs) i hlen, List.getD_eq_get (weightsOf cs) 0 hlen]

/-- Witness for C1 at a concrete input: one character with no likes value
(weight 1, total weight 1) and the draw 1/2. -/
theorem weighted_selection_correct_witness :
    (([(⟨"c1", none, none, none, some "u", none, none, none⟩ : Character)] ≠ []) ∧
     (0 ≤ (1/2 : ℝ)) ∧
     ((1/2 : ℝ) < totalWeight [⟨"c1", none, none, none, some "u", none, none, none⟩]) ∧
     (0 < ([(⟨"c1", none, none, none, some "u", none, none, none⟩ : Character)]).length)) ∧
    ((∀ ch ∈ [(⟨"c1", none, none, none, some "u", none, none, none⟩ : Character)],
      weight ch.likes = 1 + Real.sqrt (max ((ch.likes.getD 0 : ℤ) : ℝ) 0)) ∧
    (selectIndex (weightsOf [⟨"c1", none, none, none, some "u", none, none, none⟩])
        (1/2) = 0 ↔
      ((1/2 : ℝ) - cumWeight (weightsOf
          [⟨"c1", none, none, none, some "u", none, none, none⟩]) 0 ≤ 0 ∧
       ∀ j < 0, 0 < (1/2 : ℝ) - cumWeight (weightsOf
          [⟨"c1", none, none, none, some "u", none, none, none⟩]) j)) ∧
    Set.Ioo (preWeight (weightsOf
        [⟨"c1", none, none, none, some "u", none, none, none⟩]) 0)
      (cumWeight (weightsOf
        [⟨"c1", none, none, none, some "u", none, none, none⟩]) 0) ⊆
      drawSet (weightsOf [⟨"c1", none, none, none, some "u", none, none, none⟩]) 0 ∧
    drawSet (weightsOf [⟨"c1", none, none, none, some "u", none, none, none⟩]) 0 ⊆
      Set.Icc (preWeight (weightsOf
        [⟨"c1", none, none, none, some "u", none, none, none⟩]) 0)
      (cumWeight (weightsOf
        [⟨"c1", none, none, none, some "u", none, none, none⟩]) 0) ∧
    (drawSet (weightsOf [⟨"c1", none, none, none, some "u", none, none, none⟩])
      0).OrdConnected ∧
    MeasureTheory.volume
        (drawSet (weightsOf [⟨"c1", none, none, none, some "u", none, none, none⟩]) 0) =
      ENNReal.ofReal (cumWeight (weightsOf
          [⟨"c1", none, none, none, some "u", none, none, none⟩]) 0 -
        preWeight (weightsOf
          [⟨"c1", none, none, none, some "u", none, none, none⟩]) 0) ∧
    cumWeight (weightsOf [⟨"c1", none, none, none, some "u", none, none, none⟩]) 0 -
      preWeight (weightsOf [⟨"c1", none, none, none, some "u", none, none, none⟩]) 0 =
      (weightsOf [⟨"c1", none, none, none, some "u", none, none, none⟩]).getD 0 0) :=
  ⟨⟨by decide, by norm_num,
    by
      simp [totalWeight, weightsOf, weight, Real.sqrt_zero]
      norm_num,
    by decide⟩,
   weighted_selection_correct [⟨"c1", none, none, none, some "u", none, none, none⟩]
     (1/2) 0 (by decide) (by norm_num)
     (by
       simp [totalWeight, weightsOf, weight, Real.sqrt_zero]
       norm_num)
     (by decide)⟩

end SmartFeed
